import Mathlib

/-!
# Verification of `src/harness/adapters/swebench/run.py`

A shallow embedding of the stub SWE-bench runner.  The script's `main`:

* computes `ts = time.strftime("%Y%m%d-%H%M%S")`,
* builds the dict `{"timestamp": ts, "instances": 0, "resolved": 0, "score": 0}`,
* computes `out_dir = os.path.join(os.path.dirname(__file__), "..", "..", "results")`,
* runs `os.makedirs(out_dir, exist_ok=True)`,
* opens `os.path.join(out_dir, f"swebench-{ts}.json")` in mode `"w"` and
  `json.dump`s the dict with `indent=2`,
* prints `json.dumps(result)` (compact, default separators).

Machine integers do not occur; all dict values are the Python int `0` and a
string.  The filesystem is modelled as a map from paths to contents plus a set
of existing directories; the clock is a `Tm` parameter (the broken-down time
`strftime` reads).
-/

/-- A JSON value as it occurs in the script's record: a string or an integer.
(`json.dump` of this dict emits only these two shapes.) -/
inductive JVal where
  | jstr : String → JVal
  | jint : Int → JVal
deriving DecidableEq

/-- A JSON object, as a key-ordered association list (Python dicts preserve
insertion order and `json.dump` serializes in that order). -/
def JRecord : Type := List (String × JVal)

instance : DecidableEq JRecord := inferInstanceAs (DecidableEq (List (String × JVal)))

/-- The dict literal built by `main`:
`{"timestamp": ts, "instances": 0, "resolved": 0, "score": 0}`. -/
def resultRecord (ts : String) : JRecord :=
  [("timestamp", JVal.jstr ts), ("instances", JVal.jint 0),
   ("resolved", JVal.jint 0), ("score", JVal.jint 0)]

/-! ## Model of `time.strftime("%Y%m%d-%H%M%S")` -/

/-- Broken-down local time, the fields `strftime` reads for this format. -/
structure Tm where
  year : Nat
  mon : Nat
  mday : Nat
  hour : Nat
  tmin : Nat
  sec : Nat
deriving DecidableEq

/-- The digit character of `n % 10`. -/
def digitChar (n : Nat) : Char := Char.ofNat (48 + n % 10)

/-- Decimal digits of `n`, most significant first, with enough `fuel` to
exhaust the divisions (any `fuel > n` is enough). -/
def natDecAux : Nat → Nat → List Char
  | 0, _ => []
  | fuel + 1, n => if n < 10 then [digitChar n] else natDecAux fuel (n / 10) ++ [digitChar n]

/-- Decimal rendering of `n` (no padding), as `%Y` renders the year. -/
def natDec (n : Nat) : List Char := natDecAux (n + 1) n

/-- Two-digit zero-padded rendering, as `%m`, `%d`, `%H`, `%M`, `%S` render
in-range fields. -/
def pad2 (n : Nat) : List Char := if n < 10 then '0' :: natDec n else natDec n

/-- Model of `time.strftime("%Y%m%d-%H%M%S")` applied to broken-down time `t`:
unpadded decimal year, then two-digit month, day, a hyphen, hour, minute,
second.  Faithful to `strftime` for in-range fields (`validTm`). -/
def formatTimestamp (t : Tm) : String :=
  String.mk (natDec t.year ++ pad2 t.mon ++ pad2 t.mday ++
    '-' :: (pad2 t.hour ++ pad2 t.tmin ++ pad2 t.sec))

/-- Ranges of broken-down time fields as produced by `time.localtime` for
contemporary clock values (a four-digit year; `sec` may be 60 in a leap
second). -/
def validTm (t : Tm) : Prop :=
  1000 ≤ t.year ∧ t.year ≤ 9999 ∧ 1 ≤ t.mon ∧ t.mon ≤ 12 ∧
  1 ≤ t.mday ∧ t.mday ≤ 31 ∧ t.hour ≤ 23 ∧ t.tmin ≤ 59 ∧ t.sec ≤ 60

instance (t : Tm) : Decidable (validTm t) := by unfold validTm; infer_instance

/-- ASCII decimal digit test (the `\d` of the spec's pattern, on ASCII). -/
def isAsciiDigit (c : Char) : Bool := decide (48 ≤ c.toNat ∧ c.toNat ≤ 57)

/-- The regex `\A\d{8}-\d{6}\z`: eight digits, a hyphen, six digits. -/
def matchesTsPattern (s : String) : Bool :=
  decide (s.data.length = 15) && (s.data.take 8).all isAsciiDigit &&
    (match s.data.drop 8 with
     | '-' :: rest => rest.all isAsciiDigit
     | _ => false)

/-! ## Model of `json.dump` / `json.dumps`

`json.dumps(result)` uses default separators `(", ", ": ")`;
`json.dump(result, f, indent=2)` uses separators `(",", ": ")` with a newline
and two spaces of indentation after `{` and after each `,`, and a newline
before the closing `}`.  Strings are escaped as by the default encoder with
`ensure_ascii=True`. -/

/-- Lowercase hex digit of `n % 16`. -/
def hexChar (n : Nat) : Char :=
  if n % 16 < 10 then Char.ofNat (48 + n % 16) else Char.ofNat (87 + n % 16)

/-- A `\uXXXX` escape for code unit `n`. -/
def uEsc (n : Nat) : List Char :=
  ['\\', 'u', hexChar (n / 4096), hexChar (n / 256), hexChar (n / 16), hexChar n]

/-- `json` string escaping of one character (`ensure_ascii=True`): backslash,
quote and the named control escapes first; printable ASCII verbatim; all other
characters as `\uXXXX` (a surrogate pair above the BMP). -/
def escapeChar (c : Char) : List Char :=
  if c = '\\' then ['\\', '\\']
  else if c = '"' then ['\\', '"']
  else if c = Char.ofNat 8 then ['\\', 'b']
  else if c = Char.ofNat 12 then ['\\', 'f']
  else if c = '\n' then ['\\', 'n']
  else if c = '\r' then ['\\', 'r']
  else if c = '\t' then ['\\', 't']
  else if 32 ≤ c.toNat ∧ c.toNat ≤ 126 then [c]
  else if c.toNat < 65536 then uEsc c.toNat
  else uEsc (55296 + (c.toNat - 65536) / 1024) ++ uEsc (56320 + (c.toNat - 65536) % 1024)

/-- A JSON string literal, quotes included. -/
def escStr (s : String) : List Char :=
  '"' :: (s.data.map escapeChar).flatten ++ ['"']

/-- Serialization of one JSON value. -/
def dumpVal : JVal → List Char
  | JVal.jstr s => escStr s
  | JVal.jint n => (toString n).data

/-- One `"key": value` member (key separator `": "`, both modes). -/
def dumpMember (m : String × JVal) : List Char :=
  escStr m.1 ++ ':' :: ' ' :: dumpVal m.2

/-- Interleave a separator between the chunks. -/
def joinSep (sep : List Char) : List (List Char) → List Char
  | [] => []
  | [x] => x
  | x :: y :: xs => x ++ sep ++ joinSep sep (y :: xs)

/-- `json.dumps(r)`: compact serialization, item separator `", "`. -/
def dumpCompact (r : JRecord) : String :=
  String.mk ('{' :: joinSep [',', ' '] (r.map dumpMember) ++ ['}'])

/-- `json.dump(r, f, indent=2)`: members one per line, indented two spaces,
item separator `","` before each newline. -/
def dumpIndent2 (r : JRecord) : String :=
  match r with
  | [] => "\x7b\x7d"
  | ms => String.mk ('{' :: '\n' :: ' ' :: ' ' ::
      joinSep [',', '\n', ' ', ' '] (ms.map dumpMember) ++ ['\n', '}'])

/-! ## Model of the filesystem and of `main` -/

/-- Filesystem state: which directories exist, and the contents of each file. -/
structure FS where
  dirs : String → Bool
  files : String → Option String

/-- Does the path start with `/` (POSIX `os.path.isabs`)? -/
def isAbsPath (b : String) : Bool :=
  match b.data with
  | '/' :: _ => true
  | _ => false

/-- `os.path.join(a, b)` for the shapes used here: an absolute `b` replaces
`a`; otherwise a `/` is inserted unless `a` is empty or already ends in `/`. -/
def path_join (a b : String) : String :=
  if isAbsPath b then b
  else if a.data = [] ∨ a.data.getLast? = some '/' then a ++ b
  else a ++ "/" ++ b

/-- `out_dir = os.path.join(os.path.dirname(__file__), "..", "..", "results")`,
with `scriptDir` standing for `os.path.dirname(__file__)`. -/
def out_dir (scriptDir : String) : String :=
  path_join (path_join (path_join scriptDir "..") "..") "results"

/-- The output path `os.path.join(out_dir, f"swebench-{ts}.json")`. -/
def outFilePath (scriptDir ts : String) : String :=
  path_join (out_dir scriptDir) ("swebench-" ++ ts ++ ".json")

/-- The bytes `json.dump(result, f, indent=2)` writes to the file. -/
def fileText (ts : String) : String := dumpIndent2 (resultRecord ts)

/-- The line `print(json.dumps(result))` writes to standard output
(sans the trailing newline `print` appends). -/
def stdoutText (ts : String) : String := dumpCompact (resultRecord ts)

/-- `os.makedirs(d, exist_ok=True)` on a filesystem where creation succeeds:
creates `d` if absent, does nothing if it exists. -/
def makedirs (d : String) (fs : FS) : FS :=
  if fs.dirs d then fs else { fs with dirs := fun x => x = d || fs.dirs x }

/-- `open(p, "w")` followed by a write of `c`: creates or truncates `p`,
leaving every other file unchanged. -/
def writeFile (p c : String) (fs : FS) : FS :=
  { fs with files := fun q => if q = p then some c else fs.files q }

/-- Shallow embedding of `main` on the success path: the final filesystem and
the standard-output line, as a function of the script directory, the
broken-down current time and the initial filesystem. -/
def mainRun (scriptDir : String) (t : Tm) (fs : FS) : FS × String :=
  let ts := formatTimestamp t
  let fs1 := makedirs (out_dir scriptDir) fs
  let fs2 := writeFile (outFilePath scriptDir ts) (fileText ts) fs1
  (fs2, stdoutText ts)

/-- A filesystem error: the failing `OSError` of `os.makedirs` or of
`open`/`write`, tagged with the path. -/
inductive FsErr where
  | mkdirFailed : String → FsErr
  | writeFailed : String → FsErr
deriving DecidableEq

/-- `os.makedirs(d, exist_ok=True)` with an explicit permission oracle
`mkdirOk`: an existing directory is never an error; creating a missing one
fails iff the oracle denies it. -/
def makedirsE (mkdirOk : String → Bool) (d : String) (fs : FS) : Except FsErr FS :=
  if fs.dirs d then Except.ok fs
  else if mkdirOk d then Except.ok { fs with dirs := fun x => x = d || fs.dirs x }
  else Except.error (FsErr.mkdirFailed d)

/-- `open(p, "w")` + write with a permission oracle `writeOk`. -/
def writeFileE (writeOk : String → Bool) (p c : String) (fs : FS) : Except FsErr FS :=
  if writeOk p then Except.ok (writeFile p c fs)
  else Except.error (FsErr.writeFailed p)

/-- Shallow embedding of `main` with fallible filesystem calls.  `main` has no
`try`/`except`, so each error propagates: the embedding threads `Except`
through the two filesystem calls in source order and never handles an error. -/
def mainE (mkdirOk writeOk : String → Bool) (scriptDir : String) (t : Tm)
    (fs : FS) : Except FsErr (FS × String) :=
  let ts := formatTimestamp t
  (makedirsE mkdirOk (out_dir scriptDir) fs).bind fun fs1 =>
    (writeFileE writeOk (outFilePath scriptDir ts) (fileText ts) fs1).bind fun fs2 =>
      Except.ok (fs2, stdoutText ts)

/-- Process exit status of `python run.py`: 0 when `main` returns, 1 when an
uncaught exception terminates the interpreter. -/
def exitStatus (r : Except FsErr (FS × String)) : Nat :=
  match r with
  | Except.ok _ => 0
  | Except.error _ => 1

/-! ## Model of `json.loads` for the record grammar

Deserialization of a flat JSON object whose values are strings or integers,
enough to state that both serializations of the record parse back to it. -/

/-- Skip JSON insignificant whitespace. -/
def skipWs : List Char → List Char
  | [] => []
  | c :: rest => if c = ' ' ∨ c = '\n' ∨ c = '\t' ∨ c = '\r' then skipWs rest else c :: rest

/-- Hexadecimal digit value. -/
def hexVal (c : Char) : Option Nat :=
  if 48 ≤ c.toNat ∧ c.toNat ≤ 57 then some (c.toNat - 48)
  else if 97 ≤ c.toNat ∧ c.toNat ≤ 102 then some (c.toNat - 87)
  else if 65 ≤ c.toNat ∧ c.toNat ≤ 70 then some (c.toNat - 55)
  else none

/-- The single-character escapes of JSON. -/
def unescChar (e : Char) : Option Char :=
  if e = '"' then some '"'
  else if e = '\\' then some '\\'
  else if e = '/' then some '/'
  else if e = 'b' then some (Char.ofNat 8)
  else if e = 'f' then some (Char.ofNat 12)
  else if e = 'n' then some '\n'
  else if e = 'r' then some '\r'
  else if e = 't' then some '\t'
  else none

/-- Parse the body of a string literal after the opening quote: the decoded
characters and the input after the closing quote.  (`\uXXXX` decodes to the
code unit; surrogate pairing above the BMP is not modelled — no such escape
occurs in the record's serializations.) -/
def parseStringBody : List Char → Option (List Char × List Char)
  | [] => none
  | c :: rest =>
    if c = '"' then some ([], rest)
    else if c = '\\' then
      match rest with
      | [] => none
      | e :: r =>
        if e = 'u' then
          match r with
          | a :: b :: c2 :: d :: r4 =>
            match hexVal a, hexVal b, hexVal c2, hexVal d with
            | some va, some vb, some vc, some vd =>
              (parseStringBody r4).map (fun p =>
                (Char.ofNat (va * 4096 + vb * 256 + vc * 16 + vd) :: p.1, p.2))
            | _, _, _, _ => none
          | _ => none
        else
          match unescChar e with
          | some ch => (parseStringBody r).map (fun p => (ch :: p.1, p.2))
          | none => none
    else (parseStringBody rest).map (fun p => (c :: p.1, p.2))

/-- Parse a string literal starting at its opening quote. -/
def parseJStr (cs : List Char) : Option (String × List Char) :=
  match cs with
  | c :: rest =>
    if c = '"' then (parseStringBody rest).map (fun p => (String.mk p.1, p.2)) else none
  | [] => none

/-- Value of a digit sequence. -/
def digitsVal (ds : List Char) : Nat := ds.foldl (fun a c => a * 10 + (c.toNat - 48)) 0

/-- Parse a nonempty digit sequence as a natural number. -/
def parseNat (cs : List Char) : Option (Nat × List Char) :=
  match cs.takeWhile isAsciiDigit with
  | [] => none
  | ds => some (digitsVal ds, cs.dropWhile isAsciiDigit)

/-- Parse a JSON value of the record grammar: a string or a (signed) integer. -/
def parseJVal (cs : List Char) : Option (JVal × List Char) :=
  match cs with
  | [] => none
  | c :: rest =>
    if c = '"' then (parseStringBody rest).map (fun p => (JVal.jstr (String.mk p.1), p.2))
    else if c = '-' then (parseNat rest).map (fun p => (JVal.jint (-(p.1 : Int)), p.2))
    else (parseNat (c :: rest)).map (fun p => (JVal.jint (p.1 : Int), p.2))

/-- Parse `"key": value` members separated by `,` up to the closing `}`;
`fuel` bounds the number of members. -/
def parseMembers : Nat → List Char → Option (List (String × JVal) × List Char)
  | 0, _ => none
  | fuel + 1, cs =>
    match parseJStr (skipWs cs) with
    | none => none
    | some (key, r1) =>
      match skipWs r1 with
      | c2 :: r2 =>
        if c2 = ':' then
          match parseJVal (skipWs r2) with
          | none => none
          | some (v, r3) =>
            match skipWs r3 with
            | c3 :: r4 =>
              if c3 = ',' then (parseMembers fuel r4).map (fun p => ((key, v) :: p.1, p.2))
              else if c3 = '}' then some ([(key, v)], r4)
              else none
            | [] => none
        else none
      | [] => none

/-- `json.loads` on an object of the record grammar: `{`, members (or an
immediately closing `}`), then only whitespace to the end of input. -/
def jsonParseObj (s : String) : Option JRecord :=
  match skipWs s.data with
  | c :: r1 =>
    if c = '{' then
      match skipWs r1 with
      | c2 :: r2 =>
        if c2 = '}' then (if skipWs r2 = [] then some [] else none)
        else
          match parseMembers (r2.length + 1) (c2 :: r2) with
          | some (ms, rest) => if skipWs rest = [] then some ms else none
          | none => none
      | [] => none
    else none
  | [] => none

example : jsonParseObj (dumpCompact (resultRecord "20250101-000000"))
    = some (resultRecord "20250101-000000") := by decide

example : jsonParseObj (dumpIndent2 (resultRecord "20250101-000000"))
    = some (resultRecord "20250101-000000") := by decide

example : jsonParseObj (stdoutText "20250101-000000")
    = jsonParseObj (fileText "20250101-000000") := by decide

example : formatTimestamp ⟨2025, 1, 1, 0, 0, 0⟩ = "20250101-000000" := by decide

example : stdoutText "20250101-000000" =
    "\x7b\"timestamp\": \"20250101-000000\", \"instances\": 0, \"resolved\": 0, \"score\": 0\x7d" := by
  decide

example : fileText "T" =
    "\x7b\n  \"timestamp\": \"T\",\n  \"instances\": 0,\n  \"resolved\": 0,\n  \"score\": 0\n\x7d" := by
  decide

/-! ## Lemmas: decimal rendering and the timestamp pattern -/

lemma natDecAux_fuel_irrel : ∀ f g n : Nat, n < f → n < g → natDecAux f n = natDecAux g n := by
  intro f
  induction f with
  | zero => intro g n h _; omega
  | succ f ih =>
    intro g n hf hg
    cases g with
    | zero => omega
    | succ g =>
      simp only [natDecAux]
      by_cases h : n < 10
      · simp [h]
      · simp only [if_neg h]
        rw [ih g (n / 10) (by omega) (by omega)]

lemma natDec_small {n : Nat} (h : n < 10) : natDec n = [digitChar n] := by
  simp [natDec, natDecAux, h]

lemma natDec_step {n : Nat} (h : 10 ≤ n) : natDec n = natDec (n / 10) ++ [digitChar n] := by
  unfold natDec
  rw [show natDecAux (n + 1) n
      = if n < 10 then [digitChar n] else natDecAux n (n / 10) ++ [digitChar n] from rfl]
  rw [if_neg (by omega : ¬ n < 10)]
  rw [natDecAux_fuel_irrel n (n / 10 + 1) (n / 10) (by omega) (by omega)]

lemma isAsciiDigit_digitChar (n : Nat) : isAsciiDigit (digitChar n) = true := by
  unfold digitChar
  have h : n % 10 < 10 := Nat.mod_lt _ (by omega)
  set m := n % 10 with hm
  interval_cases m <;> decide

lemma natDec_digits (n : Nat) : ∀ c ∈ natDec n, isAsciiDigit c = true := by
  induction n using Nat.strong_induction_on with
  | _ n ih =>
    by_cases h : n < 10
    · rw [natDec_small h]
      intro c hc
      simp only [List.mem_singleton] at hc
      subst hc
      exact isAsciiDigit_digitChar n
    · rw [natDec_step (by omega)]
      intro c hc
      rcases List.mem_append.mp hc with h1 | h2
      · exact ih (n / 10) (by omega) c h1
      · simp only [List.mem_singleton] at h2
        subst h2
        exact isAsciiDigit_digitChar n

lemma natDec_length4 {n : Nat} (h1 : 1000 ≤ n) (h2 : n ≤ 9999) : (natDec n).length = 4 := by
  rw [natDec_step (by omega), natDec_step (by omega), natDec_step (by omega),
    natDec_small (by omega)]
  simp

lemma pad2_length {n : Nat} (h : n ≤ 99) : (pad2 n).length = 2 := by
  unfold pad2
  by_cases h10 : n < 10
  · rw [if_pos h10, natDec_small h10]
    rfl
  · rw [if_neg h10, natDec_step (by omega), natDec_small (by omega)]
    rfl

lemma pad2_digits (n : Nat) : ∀ c ∈ pad2 n, isAsciiDigit c = true := by
  unfold pad2
  by_cases h10 : n < 10
  · rw [if_pos h10]
    intro c hc
    rcases List.mem_cons.mp hc with h1 | h2
    · subst h1; decide
    · exact natDec_digits n c h2
  · rw [if_neg h10]
    exact natDec_digits n

/-! ## Lemmas: strings, paths, and the filesystem steps -/

lemma string_ext {s t : String} (h : s.data = t.data) : s = t := by
  cases s; cases t; exact congrArg String.mk h

lemma makedirs_files (d : String) (fs : FS) : (makedirs d fs).files = fs.files := by
  unfold makedirs; split <;> rfl

lemma makedirs_dirs_self (d : String) (fs : FS) : (makedirs d fs).dirs d = true := by
  unfold makedirs
  split
  · assumption
  · simp

lemma makedirs_dirs_other {e d : String} (h : e ≠ d) (fs : FS) :
    (makedirs d fs).dirs e = fs.dirs e := by
  unfold makedirs
  split
  · rfl
  · simp [h]

lemma makedirs_of_exists {d : String} {fs : FS} (h : fs.dirs d = true) :
    makedirs d fs = fs := by
  unfold makedirs
  rw [if_pos h]

lemma path_join_results_data (a : String) :
    ∃ l, (path_join a "results").data = l ++ "results".data := by
  unfold path_join
  rw [if_neg (by decide : ¬ isAbsPath "results" = true)]
  split
  · exact ⟨a.data, rfl⟩
  · exact ⟨a.data ++ ['/'], by simp⟩

lemma out_dir_last (sd : String) :
    (out_dir sd).data ≠ [] ∧ (out_dir sd).data.getLast? = some 's' := by
  obtain ⟨l, hl⟩ := path_join_results_data (path_join (path_join sd "..") "..")
  rw [show out_dir sd = path_join (path_join (path_join sd "..") "..") "results" from rfl, hl]
  constructor
  · simp [show "results".data = ['r','e','s','u','l','t','s'] from rfl]
  · rw [List.getLast?_append_of_ne_nil l (by decide)]
    decide

lemma outFilePath_data (sd ts : String) :
    (outFilePath sd ts).data
      = ((out_dir sd).data ++ '/' :: "swebench-".data) ++ ts.data ++ ".json".data := by
  obtain ⟨hne, hlast⟩ := out_dir_last sd
  unfold outFilePath path_join
  rw [show isAbsPath ("swebench-" ++ ts ++ ".json") = false from rfl]
  rw [if_neg (by simp)]
  rw [if_neg (by
    rintro (h | h)
    · exact hne h
    · rw [hlast] at h
      simp at h)]
  simp [List.append_assoc]

lemma outFilePath_inj (sd : String) {ts1 ts2 : String}
    (h : outFilePath sd ts1 = outFilePath sd ts2) : ts1 = ts2 := by
  have hd := congrArg String.data h
  rw [outFilePath_data, outFilePath_data] at hd
  exact string_ext (List.append_cancel_left (List.append_cancel_right hd))

lemma mainRun_stdout (sd : String) (t : Tm) (fs : FS) :
    (mainRun sd t fs).2 = stdoutText (formatTimestamp t) := rfl

lemma mainRun_files (sd : String) (t : Tm) (fs : FS) (q : String) :
    (mainRun sd t fs).1.files q
      = if q = outFilePath sd (formatTimestamp t)
        then some (fileText (formatTimestamp t)) else fs.files q := by
  show (writeFile _ _ (makedirs _ fs)).files q = _
  unfold writeFile
  simp [makedirs_files]

lemma mainRun_dirs (sd : String) (t : Tm) (fs : FS) :
    (mainRun sd t fs).1.dirs = (makedirs (out_dir sd) fs).dirs := rfl

/-! ## Claims C1, C3, C4, C5 -/

/-- C1: every invocation of `main` builds a record with exactly the four keys
`timestamp`, `instances`, `resolved`, `score` (in that order), binds
`instances`, `resolved` and `score` to the integer 0 whatever the clock and
filesystem, and both the printed line and the file contents are serializations
of exactly this record. -/
theorem result_record_shape (sd : String) (t : Tm) (fs : FS) :
    (resultRecord (formatTimestamp t)).map Prod.fst
        = ["timestamp", "instances", "resolved", "score"] ∧
    (resultRecord (formatTimestamp t)).lookup "instances" = some (JVal.jint 0) ∧
    (resultRecord (formatTimestamp t)).lookup "resolved" = some (JVal.jint 0) ∧
    (resultRecord (formatTimestamp t)).lookup "score" = some (JVal.jint 0) ∧
    (mainRun sd t fs).2 = dumpCompact (resultRecord (formatTimestamp t)) ∧
    (mainRun sd t fs).1.files (outFilePath sd (formatTimestamp t))
        = some (dumpIndent2 (resultRecord (formatTimestamp t))) := by
  refine ⟨rfl, rfl, rfl, rfl, rfl, ?_⟩
  rw [mainRun_files]
  simp [fileText]

lemma matchesTsPattern_of (A C : List Char) (hA : A.length = 8) (hC : C.length = 6)
    (hAd : ∀ c ∈ A, isAsciiDigit c = true) (hCd : ∀ c ∈ C, isAsciiDigit c = true) :
    matchesTsPattern (String.mk (A ++ '-' :: C)) = true := by
  unfold matchesTsPattern
  rw [show (String.mk (A ++ '-' :: C)).data = A ++ '-' :: C from rfl]
  have htake : (A ++ '-' :: C).take 8 = A := by rw [← hA]; exact List.take_left A _
  have hdrop : (A ++ '-' :: C).drop 8 = '-' :: C := by rw [← hA]; exact List.drop_left A _
  rw [htake, hdrop]
  have hlen : (A ++ '-' :: C).length = 15 := by simp [hA, hC]
  simp only [hlen, List.all_eq_true, decide_eq_true_eq, Bool.and_eq_true]
  exact ⟨⟨trivial, hAd⟩, hCd⟩

/-- C3: on every invocation of `main` with an in-range broken-down time, the
`timestamp` field of the record is the `strftime`-formatted current time and
matches the regex `\d{8}-\d{6}`: eight digits, a hyphen, six digits. -/
theorem timestamp_pattern (t : Tm) (h : validTm t) :
    (resultRecord (formatTimestamp t)).lookup "timestamp"
        = some (JVal.jstr (formatTimestamp t)) ∧
    matchesTsPattern (formatTimestamp t) = true := by
  refine ⟨rfl, ?_⟩
  obtain ⟨hy1, hy2, hm1, hm2, hd1, hd2, hh, hmi, hs⟩ := h
  unfold formatTimestamp
  apply matchesTsPattern_of
  · simp [natDec_length4 hy1 hy2, pad2_length (show t.mon ≤ 99 by omega),
      pad2_length (show t.mday ≤ 99 by omega)]
  · simp [pad2_length (show t.hour ≤ 99 by omega), pad2_length (show t.tmin ≤ 99 by omega),
      pad2_length (show t.sec ≤ 99 by omega)]
  · intro c hc
    simp only [List.mem_append] at hc
    rcases hc with (h1 | h2) | h3
    · exact natDec_digits t.year c h1
    · exact pad2_digits t.mon c h2
    · exact pad2_digits t.mday c h3
  · intro c hc
    simp only [List.mem_append] at hc
    rcases hc with (h1 | h2) | h3
    · exact pad2_digits t.hour c h1
    · exact pad2_digits t.tmin c h2
    · exact pad2_digits t.sec c h3

/-- C4: the output file path is `os.path.join` of the results directory and
`swebench-<ts>.json`, where `<ts>` is character-for-character the string in
the record's `timestamp` field, and the file at this path receives the
record's serialization. -/
theorem output_path_composition (sd : String) (t : Tm) (fs : FS) :
    (resultRecord (formatTimestamp t)).lookup "timestamp"
        = some (JVal.jstr (formatTimestamp t)) ∧
    outFilePath sd (formatTimestamp t)
        = path_join (out_dir sd) ("swebench-" ++ formatTimestamp t ++ ".json") ∧
    (outFilePath sd (formatTimestamp t)).data
        = ((out_dir sd).data ++ '/' :: "swebench-".data)
            ++ (formatTimestamp t).data ++ ".json".data ∧
    (mainRun sd t fs).1.files (outFilePath sd (formatTimestamp t))
        = some (fileText (formatTimestamp t)) := by
  refine ⟨rfl, rfl, outFilePath_data sd _, ?_⟩
  rw [mainRun_files]
  simp

/-- C5: directory creation is idempotent: after `main` the results directory
exists; if it already existed, `os.makedirs(..., exist_ok=True)` raises no
error and leaves the directory set unchanged. -/
theorem makedirs_idempotent (sd : String) (t : Tm) (mkOk : String → Bool) (fs : FS) :
    ((mainRun sd t fs).1.dirs (out_dir sd) = true) ∧
    (fs.dirs (out_dir sd) = false → mkOk (out_dir sd) = true →
      makedirsE mkOk (out_dir sd) fs
        = Except.ok { fs with dirs := fun x => x = out_dir sd || fs.dirs x }) ∧
    (fs.dirs (out_dir sd) = true →
      makedirsE mkOk (out_dir sd) fs = Except.ok fs ∧
      (mainRun sd t fs).1.dirs = fs.dirs) := by
  refine ⟨?_, ?_, ?_⟩
  · rw [mainRun_dirs]
    exact makedirs_dirs_self _ fs
  · intro h1 h2
    unfold makedirsE
    rw [if_neg (by simp [h1]), if_pos h2]
  · intro h1
    constructor
    · unfold makedirsE
      rw [if_pos h1]
    · rw [mainRun_dirs, makedirs_of_exists h1]

/-! ## Claims C6, C7, C8, C9, C10 -/

/-- C6: two invocations whose computed timestamps differ write two distinct
paths, and after running both, each file still holds its own invocation's
contents — neither overwrites the other. -/
theorem distinct_timestamps_two_files (sd : String) (t1 t2 : Tm) (fs : FS)
    (hne : formatTimestamp t1 ≠ formatTimestamp t2) :
    outFilePath sd (formatTimestamp t1) ≠ outFilePath sd (formatTimestamp t2) ∧
    (mainRun sd t2 (mainRun sd t1 fs).1).1.files (outFilePath sd (formatTimestamp t1))
        = some (fileText (formatTimestamp t1)) ∧
    (mainRun sd t2 (mainRun sd t1 fs).1).1.files (outFilePath sd (formatTimestamp t2))
        = some (fileText (formatTimestamp t2)) := by
  have hp : outFilePath sd (formatTimestamp t1) ≠ outFilePath sd (formatTimestamp t2) :=
    fun h => hne (outFilePath_inj sd h)
  refine ⟨hp, ?_, ?_⟩
  · rw [mainRun_files, if_neg hp, mainRun_files, if_pos rfl]
  · rw [mainRun_files, if_pos rfl]

/-- C7: `main` catches no exceptions.  A failing `os.makedirs` propagates as
the uncaught `OSError` (non-zero exit); with the directory step past, a
failing file write propagates likewise; when neither filesystem call fails,
`main` returns the pure run's outcome and the process exits zero. -/
theorem main_error_propagation (mkOk wrOk : String → Bool) (sd : String) (t : Tm) (fs : FS) :
    (fs.dirs (out_dir sd) = false → mkOk (out_dir sd) = false →
      mainE mkOk wrOk sd t fs = Except.error (FsErr.mkdirFailed (out_dir sd)) ∧
      exitStatus (mainE mkOk wrOk sd t fs) = 1) ∧
    ((fs.dirs (out_dir sd) = true ∨ mkOk (out_dir sd) = true) →
      wrOk (outFilePath sd (formatTimestamp t)) = false →
      mainE mkOk wrOk sd t fs
        = Except.error (FsErr.writeFailed (outFilePath sd (formatTimestamp t))) ∧
      exitStatus (mainE mkOk wrOk sd t fs) = 1) ∧
    ((fs.dirs (out_dir sd) = true ∨ mkOk (out_dir sd) = true) →
      wrOk (outFilePath sd (formatTimestamp t)) = true →
      mainE mkOk wrOk sd t fs = Except.ok (mainRun sd t fs) ∧
      exitStatus (mainE mkOk wrOk sd t fs) = 0) := by
  refine ⟨?_, ?_, ?_⟩
  · intro h1 h2
    have : mainE mkOk wrOk sd t fs = Except.error (FsErr.mkdirFailed (out_dir sd)) := by
      unfold mainE makedirsE
      rw [if_neg (by simp [h1]), if_neg (by simp [h2])]
      rfl
    exact ⟨this, by rw [this]; rfl⟩
  · intro h1 h2
    have hm : makedirsE mkOk (out_dir sd) fs = Except.ok (makedirs (out_dir sd) fs) := by
      unfold makedirsE makedirs
      rcases h1 with h | h
      · rw [if_pos h, if_pos h]
      · by_cases hd : fs.dirs (out_dir sd) = true
        · rw [if_pos hd, if_pos hd]
        · rw [if_neg hd, if_neg hd, if_pos h]
    have : mainE mkOk wrOk sd t fs
        = Except.error (FsErr.writeFailed (outFilePath sd (formatTimestamp t))) := by
      unfold mainE
      rw [hm]
      show (writeFileE wrOk _ _ _).bind _ = _
      unfold writeFileE
      rw [if_neg (by simp [h2])]
      rfl
    exact ⟨this, by rw [this]; rfl⟩
  · intro h1 h2
    have hm : makedirsE mkOk (out_dir sd) fs = Except.ok (makedirs (out_dir sd) fs) := by
      unfold makedirsE makedirs
      rcases h1 with h | h
      · rw [if_pos h, if_pos h]
      · by_cases hd : fs.dirs (out_dir sd) = true
        · rw [if_pos hd, if_pos hd]
        · rw [if_neg hd, if_neg hd, if_pos h]
    have : mainE mkOk wrOk sd t fs = Except.ok (mainRun sd t fs) := by
      unfold mainE
      rw [hm]
      show (writeFileE wrOk _ _ _).bind _ = _
      unfold writeFileE
      rw [if_pos h2]
      rfl
    exact ⟨this, by rw [this]; rfl⟩

/-- C8: frame condition: one invocation of `main` writes exactly the one file
`swebench-<ts>.json` (every other path's contents are untouched) and, beyond
possibly creating the results directory itself, changes no directory. -/
theorem main_frame (sd : String) (t : Tm) (fs : FS) :
    (mainRun sd t fs).1.files (outFilePath sd (formatTimestamp t))
        = some (fileText (formatTimestamp t)) ∧
    (∀ q : String, q ≠ outFilePath sd (formatTimestamp t) →
      (mainRun sd t fs).1.files q = fs.files q) ∧
    (∀ e : String, e ≠ out_dir sd → (mainRun sd t fs).1.dirs e = fs.dirs e) := by
  refine ⟨?_, ?_, ?_⟩
  · rw [mainRun_files, if_pos rfl]
  · intro q hq
    rw [mainRun_files, if_neg hq]
  · intro e he
    rw [mainRun_dirs]
    exact makedirs_dirs_other he fs

/-- C9: `main` is deterministic given the clock: the standard-output line and
the written file contents are functions of the timestamp alone; two
invocations observing the same timestamp produce identical output whatever
the two filesystems. -/
theorem main_deterministic (sd : String) (t : Tm) (fs1 fs2 : FS) :
    (mainRun sd t fs1).2 = stdoutText (formatTimestamp t) ∧
    (mainRun sd t fs2).2 = (mainRun sd t fs1).2 ∧
    (mainRun sd t fs1).1.files (outFilePath sd (formatTimestamp t))
        = some (fileText (formatTimestamp t)) ∧
    (mainRun sd t fs2).1.files (outFilePath sd (formatTimestamp t))
        = (mainRun sd t fs1).1.files (outFilePath sd (formatTimestamp t)) := by
  refine ⟨rfl, rfl, ?_, ?_⟩
  · rw [mainRun_files, if_pos rfl]
  · rw [mainRun_files, if_pos rfl, mainRun_files, if_pos rfl]

lemma writeFile_overwrite (p c1 c2 : String) (fs : FS) :
    writeFile p c2 (writeFile p c1 fs) = writeFile p c2 fs := by
  unfold writeFile
  congr 1
  funext q
  by_cases h : q = p <;> simp [h]

/-- C10: two invocations that compute the same timestamp target the same
path; the second silently overwrites the first (mode `"w"`, no existence
check), so the filesystem after both calls equals the filesystem after one. -/
theorem same_timestamp_overwrites (sd : String) (t1 t2 : Tm) (fs : FS)
    (h : formatTimestamp t1 = formatTimestamp t2) :
    outFilePath sd (formatTimestamp t1) = outFilePath sd (formatTimestamp t2) ∧
    (mainRun sd t2 (mainRun sd t1 fs).1).1 = (mainRun sd t1 fs).1 ∧
    (∀ p c1 c2 : String, writeFile p c2 (writeFile p c1 fs) = writeFile p c2 fs) := by
  refine ⟨by rw [h], ?_, fun p c1 c2 => writeFile_overwrite p c1 c2 fs⟩
  have e1 : (mainRun sd t1 fs).1
      = writeFile (outFilePath sd (formatTimestamp t1)) (fileText (formatTimestamp t1))
          (makedirs (out_dir sd) fs) := rfl
  have e2 : (mainRun sd t2 (mainRun sd t1 fs).1).1
      = writeFile (outFilePath sd (formatTimestamp t2)) (fileText (formatTimestamp t2))
          (makedirs (out_dir sd) (mainRun sd t1 fs).1) := rfl
  rw [e2, ← h, e1]
  have hdir : (writeFile (outFilePath sd (formatTimestamp t1)) (fileText (formatTimestamp t1))
      (makedirs (out_dir sd) fs)).dirs (out_dir sd) = true := makedirs_dirs_self _ fs
  rw [makedirs_of_exists hdir]
  exact writeFile_overwrite _ _ _ _

/-! ## Round-trip lemmas -/

lemma escapeChar_eq_self {c : Char} (h1 : 32 ≤ c.toNat) (h2 : c.toNat ≤ 126)
    (h3 : c ≠ '\\') (h4 : c ≠ '"') : escapeChar c = [c] := by
  unfold escapeChar
  rw [if_neg h3, if_neg h4]
  rw [if_neg (fun he => by subst he; revert h1; decide)]
  rw [if_neg (fun he => by subst he; revert h1; decide)]
  rw [if_neg (fun he => by subst he; revert h1; decide)]
  rw [if_neg (fun he => by subst he; revert h1; decide)]
  rw [if_neg (fun he => by subst he; revert h1; decide)]
  rw [if_pos ⟨h1, h2⟩]

lemma flatten_map_escapeChar {l : List Char} (h : ∀ c ∈ l, escapeChar c = [c]) :
    (l.map escapeChar).flatten = l := by
  induction l with
  | nil => rfl
  | cons c cs ih =>
    simp only [List.map_cons, List.flatten_cons]
    rw [h c (List.mem_cons_self c cs), ih (fun x hx => h x (List.mem_cons_of_mem c hx))]
    rfl

lemma parseStringBody_safe {l : List Char} (h : ∀ c ∈ l, c ≠ '"' ∧ c ≠ '\\')
    (rest : List Char) : parseStringBody (l ++ '"' :: rest) = some (l, rest) := by
  induction l with
  | nil =>
    simp only [List.nil_append]
    unfold parseStringBody
    rw [if_pos rfl]
  | cons c cs ih =>
    obtain ⟨h1, h2⟩ := h c (List.mem_cons_self c cs)
    simp only [List.cons_append]
    unfold parseStringBody
    rw [if_neg h1, if_neg h2, ih (fun x hx => h x (List.mem_cons_of_mem c hx))]
    rfl

lemma parseMembers_mono : ∀ f g : Nat, f ≤ g → ∀ cs ms rest,
    parseMembers f cs = some (ms, rest) → parseMembers g cs = some (ms, rest) := by
  intro f
  induction f with
  | zero =>
    intro g hg cs ms rest h
    simp [parseMembers] at h
  | succ f ih =>
    intro g hg cs ms rest h
    cases g with
    | zero => omega
    | succ g =>
      rw [parseMembers] at h ⊢
      cases h1 : parseJStr (skipWs cs) with
      | none =>
        simp only [h1] at h
        cases h
      | some kr =>
        obtain ⟨key, r1⟩ := kr
        simp only [h1] at h ⊢
        cases h2 : skipWs r1 with
        | nil =>
          simp only [h2] at h
          cases h
        | cons c2 r2 =>
          simp only [h2] at h ⊢
          by_cases hc2 : c2 = ':'
          · rw [if_pos hc2] at h ⊢
            cases h3 : parseJVal (skipWs r2) with
            | none =>
              simp only [h3] at h
              cases h
            | some vr =>
              obtain ⟨v, r3⟩ := vr
              simp only [h3] at h ⊢
              cases h4 : skipWs r3 with
              | nil =>
                simp only [h4] at h
                cases h
              | cons c3 r4 =>
                simp only [h4] at h ⊢
                by_cases hc3 : c3 = ','
                · rw [if_pos hc3] at h ⊢
                  rcases Option.map_eq_some'.mp h with ⟨p, hp, hpe⟩
                  rw [ih g (by omega) r4 p.1 p.2 (by rw [← hp])]
                  rw [← hpe]
                  rfl
                · rw [if_neg hc3] at h ⊢
                  exact h
          · rw [if_neg hc2] at h
            cases h

lemma dumpCompact_result_data {ts : String} (hsafe : ∀ c ∈ ts.data, escapeChar c = [c]) :
    (dumpCompact (resultRecord ts)).data
      = ['{', '"', 't', 'i', 'm', 'e', 's', 't', 'a', 'm', 'p', '"', ':', ' ', '"']
          ++ (ts.data ++
            ['"', ',', ' ', '"', 'i', 'n', 's', 't', 'a', 'n', 'c', 'e', 's', '"', ':', ' ', '0',
             ',', ' ', '"', 'r', 'e', 's', 'o', 'l', 'v', 'e', 'd', '"', ':', ' ', '0',
             ',', ' ', '"', 's', 'c', 'o', 'r', 'e', '"', ':', ' ', '0', '}']) := by
  have hts : (ts.data.map escapeChar).flatten = ts.data := flatten_map_escapeChar hsafe
  show '{' :: joinSep [',', ' '] ((resultRecord ts).map dumpMember) ++ ['}'] = _
  simp only [resultRecord, List.map_cons, List.map_nil, joinSep, dumpMember, dumpVal, escStr,
    hts, show ("timestamp" : String).data = ['t','i','m','e','s','t','a','m','p'] from rfl,
    show ("instances" : String).data = ['i','n','s','t','a','n','c','e','s'] from rfl,
    show ("resolved" : String).data = ['r','e','s','o','l','v','e','d'] from rfl,
    show ("score" : String).data = ['s','c','o','r','e'] from rfl,
    show (toString (0 : Int)).data = ['0'] from rfl, List.map_id]
  simp [List.append_assoc, escapeChar]

lemma dumpIndent2_result_data {ts : String} (hsafe : ∀ c ∈ ts.data, escapeChar c = [c]) :
    (dumpIndent2 (resultRecord ts)).data
      = ['{', '\n', ' ', ' ', '"', 't', 'i', 'm', 'e', 's', 't', 'a', 'm', 'p', '"', ':', ' ', '"']
          ++ (ts.data ++
            ['"', ',', '\n', ' ', ' ',
             '"', 'i', 'n', 's', 't', 'a', 'n', 'c', 'e', 's', '"', ':', ' ', '0', ',', '\n', ' ', ' ',
             '"', 'r', 'e', 's', 'o', 'l', 'v', 'e', 'd', '"', ':', ' ', '0', ',', '\n', ' ', ' ',
             '"', 's', 'c', 'o', 'r', 'e', '"', ':', ' ', '0', '\n', '}']) := by
  have hts : (ts.data.map escapeChar).flatten = ts.data := flatten_map_escapeChar hsafe
  show '{' :: '\n' :: ' ' :: ' ' ::
      joinSep [',', '\n', ' ', ' '] ((resultRecord ts).map dumpMember) ++ ['\n', '}'] = _
  simp only [resultRecord, List.map_cons, List.map_nil, joinSep, dumpMember, dumpVal, escStr,
    hts, show ("timestamp" : String).data = ['t','i','m','e','s','t','a','m','p'] from rfl,
    show ("instances" : String).data = ['i','n','s','t','a','n','c','e','s'] from rfl,
    show ("resolved" : String).data = ['r','e','s','o','l','v','e','d'] from rfl,
    show ("score" : String).data = ['s','c','o','r','e'] from rfl,
    show (toString (0 : Int)).data = ['0'] from rfl]
  simp [List.append_assoc, escapeChar]

lemma psb_timestamp (rest : List Char) :
    parseStringBody ('t' :: 'i' :: 'm' :: 'e' :: 's' :: 't' :: 'a' :: 'm' :: 'p' :: '"'::rest)
      = some (['t','i','m','e','s','t','a','m','p'], rest) :=
  @parseStringBody_safe ['t','i','m','e','s','t','a','m','p'] (by decide) rest

lemma psb_instances (rest : List Char) :
    parseStringBody ('i' :: 'n' :: 's' :: 't' :: 'a' :: 'n' :: 'c' :: 'e' :: 's' :: '"'::rest)
      = some (['i','n','s','t','a','n','c','e','s'], rest) :=
  @parseStringBody_safe ['i','n','s','t','a','n','c','e','s'] (by decide) rest

lemma psb_resolved (rest : List Char) :
    parseStringBody ('r' :: 'e' :: 's' :: 'o' :: 'l' :: 'v' :: 'e' :: 'd' :: '"'::rest)
      = some (['r','e','s','o','l','v','e','d'], rest) :=
  @parseStringBody_safe ['r','e','s','o','l','v','e','d'] (by decide) rest

lemma psb_score (rest : List Char) :
    parseStringBody ('s' :: 'c' :: 'o' :: 'r' :: 'e' :: '"'::rest)
      = some (['s','c','o','r','e'], rest) :=
  @parseStringBody_safe ['s','c','o','r','e'] (by decide) rest

lemma parseMembers_compact {tsl : List Char} (hq : ∀ c ∈ tsl, c ≠ '"' ∧ c ≠ '\\') :
    parseMembers 4 (['"', 't', 'i', 'm', 'e', 's', 't', 'a', 'm', 'p', '"', ':', ' ', '"']
        ++ (tsl ++
          ['"', ',', ' ', '"', 'i', 'n', 's', 't', 'a', 'n', 'c', 'e', 's', '"', ':', ' ', '0',
           ',', ' ', '"', 'r', 'e', 's', 'o', 'l', 'v', 'e', 'd', '"', ':', ' ', '0',
           ',', ' ', '"', 's', 'c', 'o', 'r', 'e', '"', ':', ' ', '0', '}']))
      = some ([("timestamp", JVal.jstr (String.mk tsl)), ("instances", JVal.jint 0),
          ("resolved", JVal.jint 0), ("score", JVal.jint 0)], []) := by
  have h1 := parseStringBody_safe hq
  simp [parseMembers, parseJStr, parseJVal, parseNat, skipWs, h1,
    psb_timestamp, psb_instances, psb_resolved, psb_score,
    show digitsVal ['0'] = 0 from rfl, show isAsciiDigit '0' = true from rfl,
    show isAsciiDigit ',' = false from rfl, show isAsciiDigit '}' = false from rfl]

lemma parseMembers_indent {tsl : List Char} (hq : ∀ c ∈ tsl, c ≠ '"' ∧ c ≠ '\\') :
    parseMembers 4 (['"', 't', 'i', 'm', 'e', 's', 't', 'a', 'm', 'p', '"', ':', ' ', '"']
        ++ (tsl ++
          ['"', ',', '\n', ' ', ' ',
           '"', 'i', 'n', 's', 't', 'a', 'n', 'c', 'e', 's', '"', ':', ' ', '0', ',', '\n', ' ', ' ',
           '"', 'r', 'e', 's', 'o', 'l', 'v', 'e', 'd', '"', ':', ' ', '0', ',', '\n', ' ', ' ',
           '"', 's', 'c', 'o', 'r', 'e', '"', ':', ' ', '0', '\n', '}']))
      = some ([("timestamp", JVal.jstr (String.mk tsl)), ("instances", JVal.jint 0),
          ("resolved", JVal.jint 0), ("score", JVal.jint 0)], []) := by
  have h1 := parseStringBody_safe hq
  simp [parseMembers, parseJStr, parseJVal, parseNat, skipWs, h1,
    psb_timestamp, psb_instances, psb_resolved, psb_score,
    show digitsVal ['0'] = 0 from rfl, show isAsciiDigit '0' = true from rfl,
    show isAsciiDigit ',' = false from rfl, show isAsciiDigit '\n' = false from rfl]


lemma skipWs_cons_of {c : Char} (h : ¬(c = ' ' ∨ c = '\n' ∨ c = '\t' ∨ c = '\r'))
    (R : List Char) : skipWs (c :: R) = c :: R := by
  unfold skipWs
  rw [if_neg h]

lemma skipWs_cons_ws {c : Char} (h : c = ' ' ∨ c = '\n' ∨ c = '\t' ∨ c = '\r')
    (R : List Char) : skipWs (c :: R) = skipWs R := by
  rw [show skipWs (c :: R)
      = if c = ' ' ∨ c = '\n' ∨ c = '\t' ∨ c = '\r' then skipWs R else c :: R from rfl]
  rw [if_pos h]

lemma jsonParseObj_mk_compact {tsl : List Char} (hq : ∀ c ∈ tsl, c ≠ '"' ∧ c ≠ '\\') :
    jsonParseObj (String.mk ('{' :: '\"' :: 't' :: 'i' :: 'm' :: 'e' :: 's' :: 't' :: 'a' :: 'm' :: 'p' :: '\"' :: ':' :: ' ' :: '\"'::(tsl ++ '\"' :: ',' :: ' ' :: '\"' :: 'i' :: 'n' :: 's' :: 't' :: 'a' :: 'n' :: 'c' :: 'e' :: 's' :: '\"' :: ':' :: ' ' :: '0' :: ',' :: ' ' :: '\"' :: 'r' :: 'e' :: 's' :: 'o' :: 'l' :: 'v' :: 'e' :: 'd' :: '\"' :: ':' :: ' ' :: '0' :: ',' :: ' ' :: '\"' :: 's' :: 'c' :: 'o' :: 'r' :: 'e' :: '\"' :: ':' :: ' ' :: '0' :: '}'::[])))
      = some (resultRecord (String.mk tsl)) := by
  have hle : (4 : Nat) ≤ ('t' :: 'i' :: 'm' :: 'e' :: 's' :: 't' :: 'a' :: 'm' :: 'p' :: '\"' :: ':' :: ' ' :: '\"'::(tsl ++ '\"' :: ',' :: ' ' :: '\"' :: 'i' :: 'n' :: 's' :: 't' :: 'a' :: 'n' :: 'c' :: 'e' :: 's' :: '\"' :: ':' :: ' ' :: '0' :: ',' :: ' ' :: '\"' :: 'r' :: 'e' :: 's' :: 'o' :: 'l' :: 'v' :: 'e' :: 'd' :: '\"' :: ':' :: ' ' :: '0' :: ',' :: ' ' :: '\"' :: 's' :: 'c' :: 'o' :: 'r' :: 'e' :: '\"' :: ':' :: ' ' :: '0' :: '}'::[])).length + 1 := by
    simp only [List.length_cons, List.length_append]
    omega
  have hp :
      parseMembers (('t' :: 'i' :: 'm' :: 'e' :: 's' :: 't' :: 'a' :: 'm' :: 'p' :: '\"' :: ':' :: ' ' :: '\"'::(tsl ++ '\"' :: ',' :: ' ' :: '\"' :: 'i' :: 'n' :: 's' :: 't' :: 'a' :: 'n' :: 'c' :: 'e' :: 's' :: '\"' :: ':' :: ' ' :: '0' :: ',' :: ' ' :: '\"' :: 'r' :: 'e' :: 's' :: 'o' :: 'l' :: 'v' :: 'e' :: 'd' :: '\"' :: ':' :: ' ' :: '0' :: ',' :: ' ' :: '\"' :: 's' :: 'c' :: 'o' :: 'r' :: 'e' :: '\"' :: ':' :: ' ' :: '0' :: '}'::[])).length + 1) ('"' :: 't' :: 'i' :: 'm' :: 'e' :: 's' :: 't' :: 'a' :: 'm' :: 'p' :: '\"' :: ':' :: ' ' :: '\"'::(tsl ++ '\"' :: ',' :: ' ' :: '\"' :: 'i' :: 'n' :: 's' :: 't' :: 'a' :: 'n' :: 'c' :: 'e' :: 's' :: '\"' :: ':' :: ' ' :: '0' :: ',' :: ' ' :: '\"' :: 'r' :: 'e' :: 's' :: 'o' :: 'l' :: 'v' :: 'e' :: 'd' :: '\"' :: ':' :: ' ' :: '0' :: ',' :: ' ' :: '\"' :: 's' :: 'c' :: 'o' :: 'r' :: 'e' :: '\"' :: ':' :: ' ' :: '0' :: '}'::[]))
      = some ([("timestamp", JVal.jstr (String.mk tsl)), ("instances", JVal.jint 0),
          ("resolved", JVal.jint 0), ("score", JVal.jint 0)], []) :=
    parseMembers_mono 4 _ hle _ _ _ (parseMembers_compact hq)
  unfold jsonParseObj
  simp only [show ∀ l : List Char, (String.mk l).data = l from fun _ => rfl,
    skipWs_cons_of (show ¬(('{' : Char) = ' ' ∨ ('{' : Char) = '\n' ∨ ('{' : Char) = '\t' ∨
      ('{' : Char) = '\r') from by decide),
    skipWs_cons_of (show ¬(('"' : Char) = ' ' ∨ ('"' : Char) = '\n' ∨ ('"' : Char) = '\t' ∨
      ('"' : Char) = '\r') from by decide),
    eq_self_iff_true, if_true,
    show (('"' : Char) = '}') = False from eq_false (by decide), if_false, hp,
    show skipWs [] = [] from rfl, resultRecord]

lemma jsonParseObj_mk_indent {tsl : List Char} (hq : ∀ c ∈ tsl, c ≠ '"' ∧ c ≠ '\\') :
    jsonParseObj (String.mk ('{' :: '\n' :: ' ' :: ' ' :: '\"' :: 't' :: 'i' :: 'm' :: 'e' :: 's' :: 't' :: 'a' :: 'm' :: 'p' :: '\"' :: ':' :: ' ' :: '\"'::(tsl ++ '\"' :: ',' :: '\n' :: ' ' :: ' ' :: '\"' :: 'i' :: 'n' :: 's' :: 't' :: 'a' :: 'n' :: 'c' :: 'e' :: 's' :: '\"' :: ':' :: ' ' :: '0' :: ',' :: '\n' :: ' ' :: ' ' :: '\"' :: 'r' :: 'e' :: 's' :: 'o' :: 'l' :: 'v' :: 'e' :: 'd' :: '\"' :: ':' :: ' ' :: '0' :: ',' :: '\n' :: ' ' :: ' ' :: '\"' :: 's' :: 'c' :: 'o' :: 'r' :: 'e' :: '\"' :: ':' :: ' ' :: '0' :: '\n' :: '}'::[])))
      = some (resultRecord (String.mk tsl)) := by
  have hle : (4 : Nat) ≤ ('t' :: 'i' :: 'm' :: 'e' :: 's' :: 't' :: 'a' :: 'm' :: 'p' :: '\"' :: ':' :: ' ' :: '\"'::(tsl ++ '\"' :: ',' :: '\n' :: ' ' :: ' ' :: '\"' :: 'i' :: 'n' :: 's' :: 't' :: 'a' :: 'n' :: 'c' :: 'e' :: 's' :: '\"' :: ':' :: ' ' :: '0' :: ',' :: '\n' :: ' ' :: ' ' :: '\"' :: 'r' :: 'e' :: 's' :: 'o' :: 'l' :: 'v' :: 'e' :: 'd' :: '\"' :: ':' :: ' ' :: '0' :: ',' :: '\n' :: ' ' :: ' ' :: '\"' :: 's' :: 'c' :: 'o' :: 'r' :: 'e' :: '\"' :: ':' :: ' ' :: '0' :: '\n' :: '}'::[])).length + 1 := by
    simp only [List.length_cons, List.length_append]
    omega
  have hp :
      parseMembers (('t' :: 'i' :: 'm' :: 'e' :: 's' :: 't' :: 'a' :: 'm' :: 'p' :: '\"' :: ':' :: ' ' :: '\"'::(tsl ++ '\"' :: ',' :: '\n' :: ' ' :: ' ' :: '\"' :: 'i' :: 'n' :: 's' :: 't' :: 'a' :: 'n' :: 'c' :: 'e' :: 's' :: '\"' :: ':' :: ' ' :: '0' :: ',' :: '\n' :: ' ' :: ' ' :: '\"' :: 'r' :: 'e' :: 's' :: 'o' :: 'l' :: 'v' :: 'e' :: 'd' :: '\"' :: ':' :: ' ' :: '0' :: ',' :: '\n' :: ' ' :: ' ' :: '\"' :: 's' :: 'c' :: 'o' :: 'r' :: 'e' :: '\"' :: ':' :: ' ' :: '0' :: '\n' :: '}'::[])).length + 1) ('"' :: 't' :: 'i' :: 'm' :: 'e' :: 's' :: 't' :: 'a' :: 'm' :: 'p' :: '\"' :: ':' :: ' ' :: '\"'::(tsl ++ '\"' :: ',' :: '\n' :: ' ' :: ' ' :: '\"' :: 'i' :: 'n' :: 's' :: 't' :: 'a' :: 'n' :: 'c' :: 'e' :: 's' :: '\"' :: ':' :: ' ' :: '0' :: ',' :: '\n' :: ' ' :: ' ' :: '\"' :: 'r' :: 'e' :: 's' :: 'o' :: 'l' :: 'v' :: 'e' :: 'd' :: '\"' :: ':' :: ' ' :: '0' :: ',' :: '\n' :: ' ' :: ' ' :: '\"' :: 's' :: 'c' :: 'o' :: 'r' :: 'e' :: '\"' :: ':' :: ' ' :: '0' :: '\n' :: '}'::[]))
      = some ([("timestamp", JVal.jstr (String.mk tsl)), ("instances", JVal.jint 0),
          ("resolved", JVal.jint 0), ("score", JVal.jint 0)], []) :=
    parseMembers_mono 4 _ hle _ _ _ (parseMembers_indent hq)
  unfold jsonParseObj
  simp only [show ∀ l : List Char, (String.mk l).data = l from fun _ => rfl,
    skipWs_cons_of (show ¬(('{' : Char) = ' ' ∨ ('{' : Char) = '\n' ∨ ('{' : Char) = '\t' ∨
      ('{' : Char) = '\r') from by decide),
    skipWs_cons_of (show ¬(('"' : Char) = ' ' ∨ ('"' : Char) = '\n' ∨ ('"' : Char) = '\t' ∨
      ('"' : Char) = '\r') from by decide),
    skipWs_cons_ws (show ('\n' : Char) = ' ' ∨ ('\n' : Char) = '\n' ∨ ('\n' : Char) = '\t' ∨
      ('\n' : Char) = '\r' from by decide),
    skipWs_cons_ws (show (' ' : Char) = ' ' ∨ (' ' : Char) = '\n' ∨ (' ' : Char) = '\t' ∨
      (' ' : Char) = '\r' from by decide),
    eq_self_iff_true, if_true,
    show (('"' : Char) = '}') = False from eq_false (by decide), if_false, hp,
    show skipWs [] = [] from rfl, resultRecord]

lemma mk_data (s : String) : String.mk s.data = s := by cases s; rfl

lemma tsChar_safe {c : Char} (h : isAsciiDigit c = true ∨ c = '-') :
    (c ≠ '"' ∧ c ≠ '\\') ∧ escapeChar c = [c] := by
  rcases h with h | h
  · unfold isAsciiDigit at h
    rw [decide_eq_true_eq] at h
    obtain ⟨h1, h2⟩ := h
    have hq : c ≠ '"' := by
      intro he
      subst he
      revert h1
      decide
    have hb : c ≠ '\\' := by
      intro he
      subst he
      revert h2
      decide
    exact ⟨⟨hq, hb⟩, escapeChar_eq_self (by omega) (by omega) hb hq⟩
  · subst h
    exact ⟨⟨by decide, by decide⟩, by decide⟩

lemma formatTimestamp_chars (t : Tm) :
    ∀ c ∈ (formatTimestamp t).data, isAsciiDigit c = true ∨ c = '-' := by
  intro c hc
  have hc2 : c ∈ natDec t.year ++ pad2 t.mon ++ pad2 t.mday ++
      '-' :: (pad2 t.hour ++ pad2 t.tmin ++ pad2 t.sec) := hc
  simp only [List.mem_append, List.mem_cons] at hc2
  rcases hc2 with ((hy | hm) | hd) | hh | hrest
  · exact Or.inl (natDec_digits t.year c hy)
  · exact Or.inl (pad2_digits t.mon c hm)
  · exact Or.inl (pad2_digits t.mday c hd)
  · exact Or.inr hh
  · rcases hrest with (h1 | h2) | h3
    · exact Or.inl (pad2_digits t.hour c h1)
    · exact Or.inl (pad2_digits t.tmin c h2)
    · exact Or.inl (pad2_digits t.sec c h3)

lemma formatTimestamp_noquote (t : Tm) :
    ∀ c ∈ (formatTimestamp t).data, c ≠ '"' ∧ c ≠ '\\' :=
  fun c hc => (tsChar_safe (formatTimestamp_chars t c hc)).1

lemma formatTimestamp_noesc (t : Tm) :
    ∀ c ∈ (formatTimestamp t).data, escapeChar c = [c] :=
  fun c hc => (tsChar_safe (formatTimestamp_chars t c hc)).2

lemma jsonParseObj_dumpCompact {ts : String}
    (hsafe : ∀ c ∈ ts.data, escapeChar c = [c])
    (hq : ∀ c ∈ ts.data, c ≠ '"' ∧ c ≠ '\\') :
    jsonParseObj (dumpCompact (resultRecord ts)) = some (resultRecord ts) := by
  have hs : dumpCompact (resultRecord ts)
      = String.mk ('{' :: '\"' :: 't' :: 'i' :: 'm' :: 'e' :: 's' :: 't' :: 'a' :: 'm' :: 'p' :: '\"' :: ':' :: ' ' :: '\"'::(ts.data ++ '\"' :: ',' :: ' ' :: '\"' :: 'i' :: 'n' :: 's' :: 't' :: 'a' :: 'n' :: 'c' :: 'e' :: 's' :: '\"' :: ':' :: ' ' :: '0' :: ',' :: ' ' :: '\"' :: 'r' :: 'e' :: 's' :: 'o' :: 'l' :: 'v' :: 'e' :: 'd' :: '\"' :: ':' :: ' ' :: '0' :: ',' :: ' ' :: '\"' :: 's' :: 'c' :: 'o' :: 'r' :: 'e' :: '\"' :: ':' :: ' ' :: '0' :: '}'::[])) := by
    apply string_ext
    rw [dumpCompact_result_data hsafe]
    rfl
  rw [hs, jsonParseObj_mk_compact hq, mk_data]

lemma jsonParseObj_dumpIndent2 {ts : String}
    (hsafe : ∀ c ∈ ts.data, escapeChar c = [c])
    (hq : ∀ c ∈ ts.data, c ≠ '"' ∧ c ≠ '\\') :
    jsonParseObj (dumpIndent2 (resultRecord ts)) = some (resultRecord ts) := by
  have hs : dumpIndent2 (resultRecord ts)
      = String.mk ('{' :: '\n' :: ' ' :: ' ' :: '\"' :: 't' :: 'i' :: 'm' :: 'e' :: 's' :: 't' :: 'a' :: 'm' :: 'p' :: '\"' :: ':' :: ' ' :: '\"'::(ts.data ++ '\"' :: ',' :: '\n' :: ' ' :: ' ' :: '\"' :: 'i' :: 'n' :: 's' :: 't' :: 'a' :: 'n' :: 'c' :: 'e' :: 's' :: '\"' :: ':' :: ' ' :: '0' :: ',' :: '\n' :: ' ' :: ' ' :: '\"' :: 'r' :: 'e' :: 's' :: 'o' :: 'l' :: 'v' :: 'e' :: 'd' :: '\"' :: ':' :: ' ' :: '0' :: ',' :: '\n' :: ' ' :: ' ' :: '\"' :: 's' :: 'c' :: 'o' :: 'r' :: 'e' :: '\"' :: ':' :: ' ' :: '0' :: '\n' :: '}'::[])) := by
    apply string_ext
    rw [dumpIndent2_result_data hsafe]
    rfl
  rw [hs, jsonParseObj_mk_indent hq, mk_data]

/-- C2: the text written to the file (two-space indented) and the text
printed to standard output (compact) deserialize to the identical four-field
record: `json.loads` of either serialization returns the record `main`
constructed, for every clock value. -/
theorem file_stdout_same_record (sd : String) (t : Tm) (fs : FS) :
    (mainRun sd t fs).1.files (outFilePath sd (formatTimestamp t))
        = some (fileText (formatTimestamp t)) ∧
    (mainRun sd t fs).2 = stdoutText (formatTimestamp t) ∧
    jsonParseObj (fileText (formatTimestamp t)) = some (resultRecord (formatTimestamp t)) ∧
    jsonParseObj (stdoutText (formatTimestamp t)) = some (resultRecord (formatTimestamp t)) ∧
    jsonParseObj (fileText (formatTimestamp t)) = jsonParseObj (stdoutText (formatTimestamp t)) := by
  have h1 := jsonParseObj_dumpIndent2 (formatTimestamp_noesc t) (formatTimestamp_noquote t)
  have h2 := jsonParseObj_dumpCompact (formatTimestamp_noesc t) (formatTimestamp_noquote t)
  refine ⟨?_, rfl, h1, h2, ?_⟩
  · rw [mainRun_files]
    simp
  · rw [show fileText (formatTimestamp t) = dumpIndent2 (resultRecord (formatTimestamp t)) from rfl,
      show stdoutText (formatTimestamp t) = dumpCompact (resultRecord (formatTimestamp t)) from rfl,
      h1, h2]

/-! ## Witnesses: each hypothesis-bearing claim theorem applied at a concrete
clock value, script directory and filesystem -/

theorem timestamp_pattern_witness :
    (resultRecord (formatTimestamp ⟨2025, 10, 12, 13, 45, 59⟩)).lookup "timestamp"
        = some (JVal.jstr (formatTimestamp ⟨2025, 10, 12, 13, 45, 59⟩)) ∧
    matchesTsPattern (formatTimestamp ⟨2025, 10, 12, 13, 45, 59⟩) = true :=
  timestamp_pattern ⟨2025, 10, 12, 13, 45, 59⟩ (by decide)

theorem makedirs_idempotent_witness :
    makedirsE (fun _ => true) (out_dir "/repo") ⟨fun _ => false, fun _ => none⟩
        = Except.ok { (⟨fun _ => false, fun _ => none⟩ : FS) with
            dirs := fun x => x = out_dir "/repo" ||
              (⟨fun _ => false, fun _ => none⟩ : FS).dirs x } ∧
    makedirsE (fun _ => true) (out_dir "/repo") ⟨fun _ => true, fun _ => none⟩
        = Except.ok ⟨fun _ => true, fun _ => none⟩ :=
  ⟨(makedirs_idempotent "/repo" ⟨2025, 10, 12, 13, 45, 59⟩ (fun _ => true)
      ⟨fun _ => false, fun _ => none⟩).2.1 rfl rfl,
   ((makedirs_idempotent "/repo" ⟨2025, 10, 12, 13, 45, 59⟩ (fun _ => true)
      ⟨fun _ => true, fun _ => none⟩).2.2 rfl).1⟩

theorem distinct_timestamps_two_files_witness :
    outFilePath "/repo" (formatTimestamp ⟨2025, 10, 12, 13, 45, 59⟩)
        ≠ outFilePath "/repo" (formatTimestamp ⟨2025, 10, 12, 13, 45, 58⟩) ∧
    (mainRun "/repo" ⟨2025, 10, 12, 13, 45, 58⟩
        (mainRun "/repo" ⟨2025, 10, 12, 13, 45, 59⟩ ⟨fun _ => false, fun _ => none⟩).1).1.files
        (outFilePath "/repo" (formatTimestamp ⟨2025, 10, 12, 13, 45, 59⟩))
        = some (fileText (formatTimestamp ⟨2025, 10, 12, 13, 45, 59⟩)) ∧
    (mainRun "/repo" ⟨2025, 10, 12, 13, 45, 58⟩
        (mainRun "/repo" ⟨2025, 10, 12, 13, 45, 59⟩ ⟨fun _ => false, fun _ => none⟩).1).1.files
        (outFilePath "/repo" (formatTimestamp ⟨2025, 10, 12, 13, 45, 58⟩))
        = some (fileText (formatTimestamp ⟨2025, 10, 12, 13, 45, 58⟩)) :=
  distinct_timestamps_two_files "/repo" ⟨2025, 10, 12, 13, 45, 59⟩ ⟨2025, 10, 12, 13, 45, 58⟩
    ⟨fun _ => false, fun _ => none⟩ (by decide)

theorem main_error_propagation_witness :
    (mainE (fun _ => false) (fun _ => true) "/repo" ⟨2025, 10, 12, 13, 45, 59⟩
        ⟨fun _ => false, fun _ => none⟩
      = Except.error (FsErr.mkdirFailed (out_dir "/repo")) ∧
     exitStatus (mainE (fun _ => false) (fun _ => true) "/repo" ⟨2025, 10, 12, 13, 45, 59⟩
        ⟨fun _ => false, fun _ => none⟩) = 1) ∧
    (mainE (fun _ => true) (fun _ => false) "/repo" ⟨2025, 10, 12, 13, 45, 59⟩
        ⟨fun _ => false, fun _ => none⟩
      = Except.error (FsErr.writeFailed
          (outFilePath "/repo" (formatTimestamp ⟨2025, 10, 12, 13, 45, 59⟩))) ∧
     exitStatus (mainE (fun _ => true) (fun _ => false) "/repo" ⟨2025, 10, 12, 13, 45, 59⟩
        ⟨fun _ => false, fun _ => none⟩) = 1) ∧
    (mainE (fun _ => true) (fun _ => true) "/repo" ⟨2025, 10, 12, 13, 45, 59⟩
        ⟨fun _ => false, fun _ => none⟩
      = Except.ok (mainRun "/repo" ⟨2025, 10, 12, 13, 45, 59⟩ ⟨fun _ => false, fun _ => none⟩) ∧
     exitStatus (mainE (fun _ => true) (fun _ => true) "/repo" ⟨2025, 10, 12, 13, 45, 59⟩
        ⟨fun _ => false, fun _ => none⟩) = 0) :=
  ⟨(main_error_propagation (fun _ => false) (fun _ => true) "/repo" ⟨2025, 10, 12, 13, 45, 59⟩
      ⟨fun _ => false, fun _ => none⟩).1 rfl rfl,
   (main_error_propagation (fun _ => true) (fun _ => false) "/repo" ⟨2025, 10, 12, 13, 45, 59⟩
      ⟨fun _ => false, fun _ => none⟩).2.1 (Or.inr rfl) rfl,
   (main_error_propagation (fun _ => true) (fun _ => true) "/repo" ⟨2025, 10, 12, 13, 45, 59⟩
      ⟨fun _ => false, fun _ => none⟩).2.2 (Or.inr rfl) rfl⟩

theorem main_frame_witness :
    (mainRun "/repo" ⟨2025, 10, 12, 13, 45, 59⟩ ⟨fun _ => false, fun _ => none⟩).1.files
        (outFilePath "/repo" (formatTimestamp ⟨2025, 10, 12, 13, 45, 59⟩))
        = some (fileText (formatTimestamp ⟨2025, 10, 12, 13, 45, 59⟩)) ∧
    (mainRun "/repo" ⟨2025, 10, 12, 13, 45, 59⟩ ⟨fun _ => false, fun _ => none⟩).1.files
        "/other.txt" = (⟨fun _ => false, fun _ => none⟩ : FS).files "/other.txt" ∧
    (mainRun "/repo" ⟨2025, 10, 12, 13, 45, 59⟩ ⟨fun _ => false, fun _ => none⟩).1.dirs
        "/otherdir" = (⟨fun _ => false, fun _ => none⟩ : FS).dirs "/otherdir" :=
  ⟨(main_frame "/repo" ⟨2025, 10, 12, 13, 45, 59⟩ ⟨fun _ => false, fun _ => none⟩).1,
   (main_frame "/repo" ⟨2025, 10, 12, 13, 45, 59⟩ ⟨fun _ => false, fun _ => none⟩).2.1
      "/other.txt" (by decide),
   (main_frame "/repo" ⟨2025, 10, 12, 13, 45, 59⟩ ⟨fun _ => false, fun _ => none⟩).2.2
      "/otherdir" (by decide)⟩

theorem same_timestamp_overwrites_witness :
    outFilePath "/repo" (formatTimestamp ⟨2025, 10, 12, 13, 45, 59⟩)
        = outFilePath "/repo" (formatTimestamp ⟨2025, 10, 12, 13, 45, 59⟩) ∧
    (mainRun "/repo" ⟨2025, 10, 12, 13, 45, 59⟩
        (mainRun "/repo" ⟨2025, 10, 12, 13, 45, 59⟩ ⟨fun _ => false, fun _ => none⟩).1).1
        = (mainRun "/repo" ⟨2025, 10, 12, 13, 45, 59⟩ ⟨fun _ => false, fun _ => none⟩).1 ∧
    writeFile "/p" "newer" (writeFile "/p" "older" ⟨fun _ => false, fun _ => none⟩)
        = writeFile "/p" "newer" ⟨fun _ => false, fun _ => none⟩ :=
  ⟨(same_timestamp_overwrites "/repo" ⟨2025, 10, 12, 13, 45, 59⟩ ⟨2025, 10, 12, 13, 45, 59⟩
      ⟨fun _ => false, fun _ => none⟩ rfl).1,
   (same_timestamp_overwrites "/repo" ⟨2025, 10, 12, 13, 45, 59⟩ ⟨2025, 10, 12, 13, 45, 59⟩
      ⟨fun _ => false, fun _ => none⟩ rfl).2.1,
   (same_timestamp_overwrites "/repo" ⟨2025, 10, 12, 13, 45, 59⟩ ⟨2025, 10, 12, 13, 45, 59⟩
      ⟨fun _ => false, fun _ => none⟩ rfl).2.2 "/p" "older" "newer"⟩
